import Mathlib

/-!
Verification of the ring-generator job-execution layer.

Shallow embedding of:
- the cost-budgeted retry orchestrator (app/core/pipeline.py, _run_with_retry),
- the job manager: submit / get / cancel / wait_for_completion and the
  worker loop (app/job_manager.py),
- the cleanup sweeper (_cleanup_loop),
- the ring-editor default-concurrency derivation (app/config.py).

Conventions of the embedding:
- Money (float USD in the source) is modelled as rationals.
- Timestamps (datetime in the source) are modelled as integers; a TTL
  (timedelta) is an integer; comparison "now - finished_at > ttl" carries
  over verbatim.
- External calls (Blender runs, LLM repair calls) are parameters of the
  model: a run result per attempt, and a repair outcome per attempt, where
  a Python exception raised by the repair call is modelled as none.
- The retry-loop result carries two ghost counters (runCalls, repairCalls)
  counting the external invocations made; they instrument the embedding so
  that claims about the number of calls can be stated, and are not part of
  the source return value.
-/

/-- Status enum of a job record (schemas.GenerateJobStatus). -/
inductive GenerateJobStatus where
  | queued
  | running
  | succeeded
  | failed
  | cancelled
deriving DecidableEq, Repr

/-- The terminal statuses, i.e. the set {succeeded, failed, cancelled}
used throughout job_manager.py. -/
def GenerateJobStatus.isTerminal : GenerateJobStatus → Bool
  | .succeeded => true
  | .failed => true
  | .cancelled => true
  | _ => false

/-- Token/cost usage of one LLM call (llm_client.UsageInfo); only the
fields the embedded code reads are carried. -/
structure UsageInfo where
  model : String := ""
  input_tokens : Nat := 0
  output_tokens : Nat := 0
  cost_usd : ℚ := 0
deriving DecidableEq, Repr

/-- Result of one Blender run (blender_runner.BlenderResult). -/
structure BlenderResult where
  success : Bool
  returncode : Int := -1
  stdout : String := ""
  stderr : String := ""
  pipeline_log : List String := []
  error_lines : List String := []
  glb_exists : Bool := false
  glb_size : Nat := 0
  script_path : String := ""
  spatial_report : String := ""
deriving DecidableEq, Repr

/-- One attempt-log entry (schemas.RetryEntry). -/
structure RetryEntry where
  attempt : Nat
  success : Bool
  code_length : Nat
  error_text : String := ""
  timestamp : String := ""
deriving DecidableEq, Repr

/-- Environment of one retry run: the external collaborators of
_run_with_retry.  run a c is the Blender result of the run() call made at
attempt a on code c (each attempt makes exactly one run() call, so the
attempt number identifies the call).  repair a c e s models the
build_fix_prompt + call_llm block at attempt a on code c with error
excerpt e and last spatial report s: some (newCode, usage) when the call
returns, none when it raises.  timeOf a is the timestamp string recorded
at attempt a. -/
structure RetryEnv where
  run : Nat → String → BlenderResult
  repair : Nat → String → String → Option String → Option (String × UsageInfo)
  timeOf : Nat → String

/-- error_text computation of _run_with_retry on a failed result:
first 20 error lines joined, then the last 1500 characters of stderr
appended when non-empty. -/
def buildErrorText (result : BlenderResult) : String :=
  let base := String.intercalate "\n" (result.error_lines.take 20)
  let tail := result.stderr.takeRight 1500
  if tail = "" then base else base ++ "\n" ++ tail

/-- last_spatial_report update at the top of each attempt:
kept unless the new result carries a non-empty spatial_report. -/
def spatialUpdate (result : BlenderResult) (spatial : Option String) : Option String :=
  if result.spatial_report = "" then spatial else some result.spatial_report

/-- Return value of the retry loop: (code, result, retry_log, extra_usage)
as in the source, with result an Option because the source variable is
unbound when the loop body never ran, plus the two ghost call counters. -/
structure RetryResult where
  code : String
  result : Option BlenderResult
  retry_log : List RetryEntry
  extra_usage : List UsageInfo
  runCalls : Nat
  repairCalls : Nat
deriving Repr

/-- The attempt loop of _run_with_retry.  fuel is the number of remaining
iterations (initially max_retries, so the loop runs attempt = 1 ..
max_retries); the remaining arguments are the loop state: current code,
retry_log, extra_usage, cumulative_cost, last_spatial_report, the last
BlenderResult, and the two ghost call counters. -/
def runWithRetryGo (env : RetryEnv) (max_retries : Nat) (max_cost_usd : ℚ) :
    Nat → Nat → String → List RetryEntry → List UsageInfo → ℚ → Option String →
    Option BlenderResult → Nat → Nat → RetryResult
  | 0, _, code, log, usage, _, _, lastRes, runs, reps =>
      ⟨code, lastRes, log, usage, runs, reps⟩
  | fuel + 1, attempt, code, log, usage, cost, spatial, _, runs, reps =>
      let result := env.run attempt code
      let spatial1 := spatialUpdate result spatial
      if result.success then
        ⟨code, some result,
         log ++ [⟨attempt, result.success, code.length, "", env.timeOf attempt⟩],
         usage, runs + 1, reps⟩
      else
        let errText := buildErrorText result
        let log1 := log ++
          [⟨attempt, result.success, code.length, errText.take 3000, env.timeOf attempt⟩]
        if attempt < max_retries then
          if max_cost_usd ≤ cost then
            ⟨code, some result, log1, usage, runs + 1, reps⟩
          else
            match env.repair attempt code (errText.take 2000) spatial1 with
            | none => ⟨code, some result, log1, usage, runs + 1, reps + 1⟩
            | some (newCode, u) =>
                runWithRetryGo env max_retries max_cost_usd fuel (attempt + 1) newCode
                  log1 (usage ++ [u]) (cost + u.cost_usd) spatial1 (some result)
                  (runs + 1) (reps + 1)
        else
          ⟨code, some result, log1, usage, runs + 1, reps⟩

/-- _run_with_retry: run Blender on code up to max_retries times, asking
the repair oracle to fix the code between failing attempts while the
cumulative cost stays below max_cost_usd (inclusive comparison), seeding
the cumulative cost with spent_so_far. -/
def _run_with_retry (env : RetryEnv) (initial_code : String) (max_retries : Nat)
    (max_cost_usd spent_so_far : ℚ) : RetryResult :=
  runWithRetryGo env max_retries max_cost_usd max_retries 1 initial_code [] []
    spent_so_far none none 0 0

/-- Sum of the cost_usd fields of a usage list. -/
def sumCost (usage : List UsageInfo) : ℚ :=
  (usage.map (fun u => u.cost_usd)).sum

/-- Request payload (schemas.GenerateRequest); only fields the job
manager reads are carried. -/
structure GenerateRequest where
  prompt : Option String := none
  image_b64 : Option String := none
  llm_name : String := "claude"
  request_id : Option String := none
deriving DecidableEq, Repr

/-- Pipeline outcome as seen by the worker loop (schemas.GenerateResult);
the worker only inspects the success flag, the rest is opaque. -/
structure GenerateResult where
  success : Bool
deriving DecidableEq, Repr

/-- Structured error stored on a failed record. -/
structure JobError where
  message : String
  status_code : Nat
deriving DecidableEq, Repr

/-- One job record (job_manager.JobRecord).  done_event models the
asyncio.Event: true once set. -/
structure JobRecord where
  id : String
  request : GenerateRequest
  status : GenerateJobStatus
  created_at : Int
  started_at : Option Int := none
  finished_at : Option Int := none
  progress : Nat := 0
  detail : String := ""
  result : Option GenerateResult := none
  error : Option JobError := none
  done_event : Bool := false
deriving DecidableEq, Repr

/-- Registry + admission-queue state of GenerateJobManager: the jobs dict
(insertion-ordered, keyed by the id field) and the bounded id queue. -/
structure ManagerState where
  jobs : List JobRecord
  queue : List String
  maxQueueSize : Nat
deriving DecidableEq, Repr

/-- Error taxonomy of the manager operations (raised RuntimeError /
KeyError / TimeoutError in the source). -/
inductive JobManagerError where
  | queueFull
  | duplicateJobId (id : String)
  | jobNotFound (id : String)
  | waitTimeout (id : String)
  | cannotCancelRunning
deriving DecidableEq, Repr

/-- Dict lookup self.jobs.get(job_id). -/
def findJob (jobs : List JobRecord) (jid : String) : Option JobRecord :=
  jobs.find? (fun j => j.id = jid)

/-- In-place mutation of the record with the given id. -/
def updateJob (jobs : List JobRecord) (jid : String) (r : JobRecord) : List JobRecord :=
  jobs.map (fun j => if j.id = jid then r else j)

/-- asyncio.Queue.full(): false for maxsize ≤ 0, else qsize ≥ maxsize. -/
def queueFull (st : ManagerState) : Bool :=
  decide (0 < st.maxQueueSize) && decide (st.maxQueueSize ≤ st.queue.length)

/-- Python a or b over strings, where None and the empty string are
falsy. -/
def pyOrStr (a : Option String) (b : String) : String :=
  match a with
  | none => b
  | some s => if s = "" then b else s

/-- Id resolution in submit: job_id or request.request_id or
str(uuid.uuid4()); freshId stands for the generated uuid. -/
def resolveJobId (job_id : Option String) (request : GenerateRequest)
    (freshId : String) : String :=
  pyOrStr job_id (pyOrStr request.request_id freshId)

/-- The freshly created record of a successful submit: Queued, with
created_at = now and all remaining fields at their defaults. -/
def newJobRecord (jid : String) (request : GenerateRequest) (now : Int) : JobRecord :=
  { id := jid, request := request, status := GenerateJobStatus.queued, created_at := now }

/-- GenerateJobManager.submit, run under the manager lock: check
capacity, resolve the id, check uniqueness, then create the Queued
record, register it and enqueue its id.  now is the creation timestamp;
failures return the state unchanged. -/
def submit (st : ManagerState) (request : GenerateRequest) (job_id : Option String)
    (freshId : String) (now : Int) : ManagerState × Except JobManagerError JobRecord :=
  if queueFull st then
    (st, .error .queueFull)
  else
    let jid := resolveJobId job_id request freshId
    if (findJob st.jobs jid).isSome then
      (st, .error (.duplicateJobId jid))
    else
      let record := newJobRecord jid request now
      ({ st with jobs := st.jobs ++ [record], queue := st.queue ++ [jid] }, .ok record)

/-- GenerateJobManager.get. -/
def getJob (st : ManagerState) (jid : String) : Except JobManagerError JobRecord :=
  match findJob st.jobs jid with
  | none => .error (.jobNotFound jid)
  | some r => .ok r

/-- GenerateJobManager.cancel: Queued records become Cancelled with
finished_at set and the completion event fired; terminal records are
returned untouched; Running records are rejected. -/
def cancel (st : ManagerState) (jid : String) (now : Int) :
    ManagerState × Except JobManagerError JobRecord :=
  match findJob st.jobs jid with
  | none => (st, .error (.jobNotFound jid))
  | some record =>
    if record.status = .queued then
      let record1 := { record with
        status := GenerateJobStatus.cancelled
        finished_at := some now
        done_event := true }
      ({ st with jobs := updateJob st.jobs jid record1 }, .ok record1)
    else if record.status.isTerminal then
      (st, .ok record)
    else
      (st, .error .cannotCancelRunning)

/-- GenerateJobManager.wait_for_completion: look the record up, wait on
its event, re-read on success.  externalFire is true when another task
sets the event within the timeout window; the wait succeeds when the
event is already set or fires in time, otherwise WaitTimeout.  The state
is returned untouched on every path. -/
def wait_for_completion (st : ManagerState) (jid : String) (externalFire : Bool) :
    ManagerState × Except JobManagerError JobRecord :=
  match findJob st.jobs jid with
  | none => (st, .error (.jobNotFound jid))
  | some record =>
    if record.done_event || externalFire then
      (st, getJob st jid)
    else
      (st, .error (.waitTimeout jid))

/-- Outcome application of the worker loop (steps 5 and 6): on
orchestrator success mark Succeeded, on a returned failure mark Failed
with the canned error, on a raised exception mark Failed with the
exception message; the raised case is Except.error. -/
def workerApplyOutcome (record : JobRecord) (outcome : Except String GenerateResult) :
    JobRecord :=
  match outcome with
  | .ok result =>
    if result.success then
      { record with
        result := some result
        status := GenerateJobStatus.succeeded
        progress := 100
        detail := "Generation complete" }
    else
      { record with
        result := some result
        status := GenerateJobStatus.failed
        error := some ⟨"Ring generation failed after all retries", 500⟩
        progress := 100
        detail := "Failed after retries" }
  | .error msg =>
    { record with
      status := GenerateJobStatus.failed
      error := some ⟨msg, 500⟩
      progress := 100
      detail := "Error: " ++ msg.take 200 }

/-- One iteration of GenerateJobManager._worker_loop on a dequeued id:
skip missing or already-cancelled records; otherwise mark Running
(started_at := tStart, progress 5), apply the orchestrator outcome, and
in the finally block set finished_at := tFinish and fire the completion
event. -/
def workerProcessJob (st : ManagerState) (jid : String)
    (outcome : Except String GenerateResult) (tStart tFinish : Int) : ManagerState :=
  match findJob st.jobs jid with
  | none => st
  | some record =>
    if record.status = .cancelled then st
    else
      let record1 := { record with
        status := GenerateJobStatus.running
        started_at := some tStart
        progress := 5
        detail := "Starting pipeline..." }
      let record2 := workerApplyOutcome record1 outcome
      let record3 := { record2 with finished_at := some tFinish, done_event := true }
      { st with jobs := updateJob st.jobs jid record3 }

/-- Sort key of the capacity-eviction phase:
job.finished_at or job.created_at. -/
def sweepKey (j : JobRecord) : Int :=
  j.finished_at.getD j.created_at

/-- TTL-expiry test of the sweeper: terminal, finished_at present, and
now - finished_at > ttl. -/
def ttlExpired (now ttl : Int) (j : JobRecord) : Bool :=
  j.status.isTerminal &&
    (match j.finished_at with
     | some f => decide (ttl < now - f)
     | none => false)

/-- Phase 1 of a sweep tick: evict every TTL-expired terminal record. -/
def ttlEvict (jobs : List JobRecord) (now ttl : Int) : List JobRecord :=
  jobs.filter (fun j => ! ttlExpired now ttl j)

/-- Phase 2 of a sweep tick: if more than max_job_records terminal
records remain, evict the overflow with the oldest sort keys (stable sort
by finished_at or created_at, then drop the ids of the first overflow
entries). -/
def capEvict (jobs : List JobRecord) (max_job_records : Nat) : List JobRecord :=
  let completed := jobs.filter (fun j => j.status.isTerminal)
  let overflow := completed.length - max_job_records
  if 0 < overflow then
    let completedSorted := completed.mergeSort (fun a b => decide (sweepKey a ≤ sweepKey b))
    let evict := completedSorted.take overflow
    jobs.filter (fun j => ! evict.any (fun e => e.id == j.id))
  else
    jobs

/-- One tick of GenerateJobManager._cleanup_loop. -/
def sweepTick (jobs : List JobRecord) (now ttl : Int) (max_job_records : Nat) :
    List JobRecord :=
  capEvict (ttlEvict jobs now ttl) max_job_records

/-- Count of terminal records in a registry snapshot. -/
def countTerminal (jobs : List JobRecord) : Nat :=
  (jobs.filter (fun j => j.status.isTerminal)).length

/-- Python os.cpu_count() or 2: None and 0 are falsy. -/
def pyCpuOr2 (cpu_count : Option Nat) : Nat :=
  match cpu_count with
  | none => 2
  | some n => if n = 0 then 2 else n

/-- ring-editor app/config.py _default_concurrency:
max(1, min(4, cpu // 2 if cpu > 2 else 1)). -/
def _default_concurrency (cpu_count : Option Nat) : Nat :=
  let cpu := pyCpuOr2 cpu_count
  max 1 (min 4 (if 2 < cpu then cpu / 2 else 1))

/-- Validation bounds of RingEditSettings.max_concurrent_jobs
(Field ge=1 le=32). -/
def maxConcurrentJobsValid (v : Nat) : Prop :=
  1 ≤ v ∧ v ≤ 32

/-! ### Retry-orchestrator lemmas -/

/-- Well-formedness of an attempt log: attempts are numbered 1..k in
order where k counts the run() invocations, every entry before the last
records a failure, and successful entries carry an empty error text. -/
def retryLogWellFormed (r : RetryResult) : Prop :=
  r.retry_log.map (fun e => e.attempt) = List.range' 1 r.runCalls ∧
  r.retry_log.length = r.runCalls ∧
  (∀ e ∈ r.retry_log.dropLast, e.success = false) ∧
  (∀ e ∈ r.retry_log, e.success = true → e.error_text = "")

/-- Shape of the loop outcome when every attempt fails and every repair
succeeds at flat cost γ within budget: fuel attempt-log entries and fuel
run calls are added, fuel - 1 repairs are made, each contributing γ to
the extra-usage costs, and the final outcome is a failure. -/
def allFailConclusion (r : RetryResult) (baseLog : List RetryEntry)
    (baseUsage : List UsageInfo) (γ : ℚ) (fuel runs reps : Nat) : Prop :=
  r.retry_log.length = baseLog.length + fuel ∧
  r.extra_usage.map (fun u => u.cost_usd)
      = baseUsage.map (fun u => u.cost_usd) ++ List.replicate (fuel - 1) γ ∧
  r.runCalls = runs + fuel ∧
  r.repairCalls = reps + (fuel - 1) ∧
  r.result.map BlenderResult.success = some false

lemma runWithRetryGo_zero (env : RetryEnv) (m : Nat) (q : ℚ) (attempt : Nat)
    (code : String) (log : List RetryEntry) (usage : List UsageInfo) (cost : ℚ)
    (sp : Option String) (last : Option BlenderResult) (runs reps : Nat) :
    runWithRetryGo env m q 0 attempt code log usage cost sp last runs reps
      = ⟨code, last, log, usage, runs, reps⟩ := rfl

lemma runWithRetryGo_succ (env : RetryEnv) (m : Nat) (q : ℚ) (fuel attempt : Nat)
    (code : String) (log : List RetryEntry) (usage : List UsageInfo) (cost : ℚ)
    (sp : Option String) (last : Option BlenderResult) (runs reps : Nat) :
    runWithRetryGo env m q (fuel + 1) attempt code log usage cost sp last runs reps =
      (let result := env.run attempt code
       let spatial1 := spatialUpdate result sp
       if result.success then
         ⟨code, some result,
          log ++ [⟨attempt, result.success, code.length, "", env.timeOf attempt⟩],
          usage, runs + 1, reps⟩
       else
         let errText := buildErrorText result
         let log1 := log ++
           [⟨attempt, result.success, code.length, errText.take 3000, env.timeOf attempt⟩]
         if attempt < m then
           if q ≤ cost then
             ⟨code, some result, log1, usage, runs + 1, reps⟩
           else
             match env.repair attempt code (errText.take 2000) spatial1 with
             | none => ⟨code, some result, log1, usage, runs + 1, reps + 1⟩
             | some (newCode, u) =>
                 runWithRetryGo env m q fuel (attempt + 1) newCode
                   log1 (usage ++ [u]) (cost + u.cost_usd) spatial1 (some result)
                   (runs + 1) (reps + 1)
         else
           ⟨code, some result, log1, usage, runs + 1, reps⟩) := rfl

lemma retry_allfail_go (env : RetryEnv) (m : Nat) (q γ : ℚ)
    (hγ : 0 ≤ γ)
    (hrun : ∀ a c, (env.run a c).success = false)
    (fix : Nat → String → String → Option String → String × UsageInfo)
    (hrep : ∀ a c e s, env.repair a c e s = some (fix a c e s))
    (hcost : ∀ a c e s, (fix a c e s).2.cost_usd = γ) :
    ∀ fuel attempt code log usage (cost : ℚ) sp last runs reps,
      1 ≤ fuel →
      attempt + fuel = m + 1 →
      cost + γ * ((fuel - 1 : ℕ) : ℚ) < q →
      allFailConclusion
        (runWithRetryGo env m q fuel attempt code log usage cost sp last runs reps)
        log usage γ fuel runs reps := by
  intro fuel
  induction fuel with
  | zero =>
      intro attempt code log usage cost sp last runs reps h1 _ _
      omega
  | succ k ih =>
      intro attempt code log usage cost sp last runs reps _ hm hq
      rw [runWithRetryGo_succ]
      rcases Nat.eq_zero_or_pos k with hk | hk
      · subst hk
        have hend : ¬ attempt < m := by omega
        simp only [hrun, Bool.false_eq_true, if_false, hend, allFailConclusion]
        simp [hrun]
      · obtain ⟨j, rfl⟩ : ∃ j, k = j + 1 := ⟨k - 1, by omega⟩
        have hlt : attempt < m := by omega
        have hcastk : (((j + 1 + 1 : ℕ) - 1 : ℕ) : ℚ) = ((j : ℚ) + 1) := by
          push_cast
          norm_num
        have hcost0 : cost < q := by
          have hterm : 0 ≤ γ * ((j : ℚ) + 1) := by positivity
          rw [hcastk] at hq
          linarith
        have hnotle : ¬ q ≤ cost := not_le.mpr hcost0
        simp only [hrun, Bool.false_eq_true, if_false, hlt, if_true, hnotle, hrep]
        have hrec := ih (attempt + 1)
          (fix attempt code ((buildErrorText (env.run attempt code)).take 2000)
            (spatialUpdate (env.run attempt code) sp)).1
          (log ++ [⟨attempt, false, code.length,
            ((buildErrorText (env.run attempt code)).take 3000), env.timeOf attempt⟩])
          (usage ++ [(fix attempt code ((buildErrorText (env.run attempt code)).take 2000)
            (spatialUpdate (env.run attempt code) sp)).2])
          (cost + (fix attempt code ((buildErrorText (env.run attempt code)).take 2000)
            (spatialUpdate (env.run attempt code) sp)).2.cost_usd)
          (spatialUpdate (env.run attempt code) sp)
          (some (env.run attempt code)) (runs + 1) (reps + 1)
          (by omega) (by omega) ?_
        · rcases hrec with ⟨hA, hB, hC, hD, hE⟩
          refine ⟨?_, ?_, ?_, ?_, hE⟩
          · simp only [List.length_append, List.length_cons, List.length_nil] at hA ⊢
            omega
          · rw [hB]
            simp only [List.map_append, List.map_cons, List.map_nil, hcost]
            have hrepl : List.replicate ((j + 1 + 1 : ℕ) - 1) γ
                = γ :: List.replicate ((j + 1 : ℕ) - 1) γ := by
              simp [List.replicate]
            rw [hrepl]
            simp
          · rw [hC]
            omega
          · rw [hD]
            omega
        · rw [hcost]
          have hj : (((j + 1 : ℕ) - 1 : ℕ) : ℚ) = (j : ℚ) := by push_cast; norm_num
          rw [hj]
          rw [hcastk] at hq
          ring_nf
          ring_nf at hq
          linarith

lemma allFalse_concat (log : List RetryEntry) (e : RetryEntry)
    (hfail : ∀ x ∈ log, x.success = false) (he : e.success = false) :
    ∀ x ∈ log ++ [e], x.success = false := by
  intro x hx
  rcases List.mem_append.mp hx with h | h
  · exact hfail x h
  · rw [List.mem_singleton.mp h]
    exact he

lemma logStep_wf (log : List RetryEntry) (runs : Nat) (e : RetryEntry)
    (hmap : log.map (fun x => x.attempt) = List.range' 1 runs)
    (hfail : ∀ x ∈ log, x.success = false)
    (hea : e.attempt = runs + 1)
    (hee : e.success = true → e.error_text = "") :
    (log ++ [e]).map (fun x => x.attempt) = List.range' 1 (runs + 1) ∧
    (∀ x ∈ (log ++ [e]).dropLast, x.success = false) ∧
    (∀ x ∈ log ++ [e], x.success = true → x.error_text = "") := by
  refine ⟨?_, ?_, ?_⟩
  · simp [List.map_append, hmap, hea, List.range'_1_concat, Nat.add_comm]
  · rw [List.dropLast_concat]
    exact hfail
  · intro x hx
    rcases List.mem_append.mp hx with h | h
    · intro hxs
      rw [hfail x h] at hxs
      exact nomatch hxs
    · rw [List.mem_singleton.mp h]
      exact hee

lemma retry_log_inv_go (env : RetryEnv) (m : Nat) (q : ℚ) :
    ∀ fuel attempt code log usage (cost : ℚ) sp last runs reps,
      attempt = runs + 1 →
      log.map (fun e => e.attempt) = List.range' 1 runs →
      (∀ e ∈ log, e.success = false) →
      ((runWithRetryGo env m q fuel attempt code log usage cost sp last runs
          reps).retry_log.map (fun e => e.attempt)
        = List.range' 1 (runWithRetryGo env m q fuel attempt code log usage cost sp last
            runs reps).runCalls) ∧
      (∀ e ∈ (runWithRetryGo env m q fuel attempt code log usage cost sp last runs
          reps).retry_log.dropLast, e.success = false) ∧
      (∀ e ∈ (runWithRetryGo env m q fuel attempt code log usage cost sp last
          runs reps).retry_log, e.success = true → e.error_text = "") := by
  intro fuel
  induction fuel with
  | zero =>
      intro attempt code log usage cost sp last runs reps _ hmap hfail
      rw [runWithRetryGo_zero]
      exact ⟨hmap, fun e he => hfail e (List.dropLast_subset log he),
        fun e he hs => by rw [hfail e he] at hs; exact nomatch hs⟩
  | succ k ih =>
      intro attempt code log usage cost sp last runs reps ha hmap hfail
      rw [runWithRetryGo_succ]
      by_cases hs : (env.run attempt code).success = true
      · simp only [hs, if_true]
        exact logStep_wf log runs _ hmap hfail ha (fun _ => rfl)
      · rw [Bool.not_eq_true] at hs
        simp only [hs, Bool.false_eq_true, if_false]
        by_cases hlt : attempt < m
        · simp only [hlt, if_true]
          by_cases hb : q ≤ cost
          · simp only [hb, if_true]
            exact logStep_wf log runs _ hmap hfail ha (fun h => nomatch h)
          · simp only [hb, if_false]
            cases hr : env.repair attempt code
                ((buildErrorText (env.run attempt code)).take 2000)
                (spatialUpdate (env.run attempt code) sp) with
            | none =>
                simp only [hr]
                exact logStep_wf log runs _ hmap hfail ha (fun h => nomatch h)
            | some p =>
                obtain ⟨nc, u⟩ := p
                simp only [hr]
                exact ih (attempt + 1) nc
                  (log ++ [⟨attempt, false, code.length,
                    ((buildErrorText (env.run attempt code)).take 3000),
                    env.timeOf attempt⟩])
                  (usage ++ [u]) (cost + u.cost_usd)
                  (spatialUpdate (env.run attempt code) sp) (some (env.run attempt code))
                  (runs + 1) (reps + 1) (by omega)
                  (logStep_wf log runs ⟨attempt, false, code.length,
                    ((buildErrorText (env.run attempt code)).take 3000),
                    env.timeOf attempt⟩ hmap hfail ha (fun h => nomatch h)).1
                  (allFalse_concat log ⟨attempt, false, code.length,
                    ((buildErrorText (env.run attempt code)).take 3000),
                    env.timeOf attempt⟩ hfail rfl)
        · simp only [hlt, if_false]
          exact logStep_wf log runs _ hmap hfail ha (fun h => nomatch h)

/-- Concrete all-failing Blender result used by witnesses. -/
def failBlender : BlenderResult :=
  { success := false, error_lines := ["boom"], stderr := "tail" }

/-- Concrete environment where every run fails and every repair succeeds
at cost 1. -/
def envAllFail : RetryEnv :=
  { run := fun _ _ => failBlender
    repair := fun _ c _ _ => some (c ++ "x", { cost_usd := 1 })
    timeOf := fun _ => "t" }

/-- Concrete environment where every run fails and every repair call
raises. -/
def envRaise : RetryEnv :=
  { run := fun _ _ => failBlender
    repair := fun _ _ _ _ => none
    timeOf := fun _ => "t" }

/-- C1: with max_attempts 3, budget ceiling $5 and spent_so_far $0, every
run failing and every repair succeeding with incremental cost $1, the
orchestrator performs exactly 3 attempts (3 attempt-log entries and 3 run
calls), exactly 2 repair calls, the repair cost deltas sum to $2, and the
final outcome is a failure. -/
theorem retry_three_attempts_two_repairs (env : RetryEnv) (code : String)
    (hrun : ∀ a c, (env.run a c).success = false)
    (hrep : ∀ a c e s, ∃ nc u, env.repair a c e s = some (nc, u) ∧ u.cost_usd = 1) :
    (_run_with_retry env code 3 5 0).retry_log.length = 3 ∧
    (_run_with_retry env code 3 5 0).runCalls = 3 ∧
    (_run_with_retry env code 3 5 0).repairCalls = 2 ∧
    sumCost (_run_with_retry env code 3 5 0).extra_usage = 2 ∧
    (_run_with_retry env code 3 5 0).result.map BlenderResult.success = some false := by
  choose nc u hspec hcost using hrep
  have h := retry_allfail_go env 3 5 1 (by norm_num) hrun
    (fun a c e s => (nc a c e s, u a c e s)) (fun a c e s => hspec a c e s)
    (fun a c e s => hcost a c e s)
    3 1 code [] [] 0 none none 0 0 (by norm_num) (by norm_num) (by norm_num)
  obtain ⟨hA, hB, hC, hD, hE⟩ := h
  simp only [_run_with_retry]
  refine ⟨?_, ?_, ?_, ?_, hE⟩
  · simpa using hA
  · simpa using hC
  · simpa using hD
  · simp only [sumCost]
    rw [hB]
    norm_num [List.sum_replicate]

theorem retry_three_attempts_two_repairs_witness :
    (_run_with_retry envAllFail ("seed") 3 5 0).retry_log.length = 3 ∧
    (_run_with_retry envAllFail ("seed") 3 5 0).runCalls = 3 ∧
    (_run_with_retry envAllFail ("seed") 3 5 0).repairCalls = 2 ∧
    sumCost (_run_with_retry envAllFail ("seed") 3 5 0).extra_usage = 2 ∧
    (_run_with_retry envAllFail ("seed") 3 5 0).result.map BlenderResult.success
      = some false :=
  retry_three_attempts_two_repairs envAllFail ("seed")
    (fun _ _ => rfl)
    (fun _ c _ _ => ⟨c ++ "x", { cost_usd := 1 }, rfl, rfl⟩)

/-- C2: whenever the cumulative cost already sits at or above the budget
ceiling (inclusive comparison) and every run fails, the loop stops after
the first failing attempt: exactly one attempt-log entry, one run call,
no repair call at all, and a failing outcome.  This covers the
budget_ceiling = $0.5 scenario with a $1 repair for any seed spend at or
above the ceiling. -/
theorem retry_budget_exhausted_no_repair (env : RetryEnv) (code : String)
    (max_retries : Nat) (q spent : ℚ)
    (hrun : ∀ a c, (env.run a c).success = false)
    (hmax : 1 ≤ max_retries) (hspent : q ≤ spent) :
    (_run_with_retry env code max_retries q spent).retry_log.length = 1 ∧
    (_run_with_retry env code max_retries q spent).repairCalls = 0 ∧
    (_run_with_retry env code max_retries q spent).runCalls = 1 ∧
    (_run_with_retry env code max_retries q spent).result.map BlenderResult.success
      = some false := by
  obtain ⟨k, rfl⟩ : ∃ k, max_retries = k + 1 := ⟨max_retries - 1, by omega⟩
  simp only [_run_with_retry]
  rw [runWithRetryGo_succ]
  by_cases h1 : 1 < k + 1
  · simp [hrun, h1, hspent]
  · simp [hrun, h1]

theorem retry_budget_exhausted_no_repair_witness :
    (_run_with_retry envAllFail ("seed") 3 (1/2) (1/2)).retry_log.length = 1 ∧
    (_run_with_retry envAllFail ("seed") 3 (1/2) (1/2)).repairCalls = 0 ∧
    (_run_with_retry envAllFail ("seed") 3 (1/2) (1/2)).runCalls = 1 ∧
    (_run_with_retry envAllFail ("seed") 3 (1/2) (1/2)).result.map BlenderResult.success
      = some false :=
  retry_budget_exhausted_no_repair envAllFail ("seed") 3 (1/2) (1/2)
    (fun _ _ => rfl) (by norm_num) (le_refl _)

/-- C7: at any point of any retry run, if the attempt fails, another
attempt remains, the budget allows a repair, and the repair call itself
raises, then the loop returns immediately: the result is the failing
outcome of that attempt together with the attempt log accumulated so far
plus this attempt's entry, the usage list is unchanged, and exactly one
more run call and one more repair call were made (no retry of either
follows).  The exception does not propagate: the orchestrator returns a
value. -/
theorem retry_oracle_raise_stops (env : RetryEnv) (m : Nat) (q : ℚ) (fuel attempt : Nat)
    (code : String) (log : List RetryEntry) (usage : List UsageInfo) (cost : ℚ)
    (sp : Option String) (last : Option BlenderResult) (runs reps : Nat)
    (hfail : (env.run attempt code).success = false)
    (hlt : attempt < m)
    (hcost : cost < q)
    (hraise : env.repair attempt code ((buildErrorText (env.run attempt code)).take 2000)
        (spatialUpdate (env.run attempt code) sp) = none) :
    runWithRetryGo env m q (fuel + 1) attempt code log usage cost sp last runs reps =
      ⟨code, some (env.run attempt code),
       log ++ [⟨attempt, false, code.length,
         ((buildErrorText (env.run attempt code)).take 3000), env.timeOf attempt⟩],
       usage, runs + 1, reps + 1⟩ := by
  rw [runWithRetryGo_succ]
  simp only [hfail, Bool.false_eq_true, if_false, hlt, if_true, not_le.mpr hcost,
    hraise]

theorem retry_oracle_raise_stops_witness :
    runWithRetryGo envRaise 3 5 (1 + 1) 1 ("seed") [] [] 0 none none 0 0 =
      ⟨("seed"), some (envRaise.run 1 ("seed")),
       [] ++ [⟨1, false, ("seed").length,
         ((buildErrorText (envRaise.run 1 ("seed"))).take 3000), envRaise.timeOf 1⟩],
       [], 0 + 1, 0 + 1⟩ :=
  retry_oracle_raise_stops envRaise 3 5 1 1 ("seed") [] [] 0 none none 0 0 rfl
    (by norm_num) (by norm_num) rfl

/-- C10: every attempt log returned by the orchestrator is well-formed:
its entries carry attempt numbers exactly 1..k in order where k is the
number of run() invocations, every entry before the last records a
failure (so at most one entry succeeds and only as the last entry), and
successful entries carry an empty error excerpt. -/
theorem retry_log_invariants (env : RetryEnv) (code : String) (max_retries : Nat)
    (q spent : ℚ) :
    retryLogWellFormed (_run_with_retry env code max_retries q spent) := by
  have h := retry_log_inv_go env max_retries q max_retries 1 code [] [] spent none none
    0 0 rfl rfl (by simp)
  obtain ⟨hmap, hdrop, herr⟩ := h
  refine ⟨hmap, ?_, hdrop, herr⟩
  have hlen := congrArg List.length hmap
  simpa using hlen

/-! ### Job-manager lemmas -/

lemma findJob_id (jobs : List JobRecord) (jid : String) (r : JobRecord)
    (h : findJob jobs jid = some r) : r.id = jid := by
  have hp := List.find?_some h
  simpa using hp

lemma findJob_updateJob (jobs : List JobRecord) (jid : String) (record r : JobRecord)
    (hfind : findJob jobs jid = some record) (hid : r.id = jid) :
    findJob (updateJob jobs jid r) jid = some r := by
  induction jobs with
  | nil => simp [findJob] at hfind
  | cons j js ih =>
      by_cases h : j.id = jid
      · simp [findJob, updateJob, List.find?_cons, h, hid]
      · have hd : decide (j.id = jid) = false := by simp [h]
        simp only [findJob, updateJob, List.map_cons, if_neg h] at hfind ⊢
        rw [List.find?_cons] at hfind ⊢
        simp only [hd] at hfind ⊢
        exact ih hfind

lemma findJob_append_fresh (jobs : List JobRecord) (r : JobRecord)
    (h : findJob jobs r.id = none) : findJob (jobs ++ [r]) r.id = some r := by
  induction jobs with
  | nil => simp [findJob, List.find?_cons]
  | cons j js ih =>
      by_cases hj : j.id = r.id
      · simp [findJob, List.find?_cons, hj] at h
      · have hd : decide (j.id = r.id) = false := by simp [hj]
        simp only [findJob, List.cons_append] at h ⊢
        rw [List.find?_cons] at h ⊢
        simp only [hd] at h ⊢
        exact ih h

lemma workerApplyOutcome_id (r : JobRecord) (o : Except String GenerateResult) :
    (workerApplyOutcome r o).id = r.id := by
  cases o with
  | error msg => rfl
  | ok result =>
      by_cases h : result.success
      · simp [workerApplyOutcome, h]
      · simp [workerApplyOutcome, h]

lemma workerApplyOutcome_terminal (r : JobRecord) (o : Except String GenerateResult) :
    (workerApplyOutcome r o).status.isTerminal = true := by
  cases o with
  | error msg => rfl
  | ok result =>
      by_cases h : result.success
      · simp [workerApplyOutcome, h, GenerateJobStatus.isTerminal]
      · simp [workerApplyOutcome, h, GenerateJobStatus.isTerminal]

/-- C3: for every job a worker actually processes (found in the registry,
not already cancelled — here: still Queued, completion event not yet
fired), on every outcome path of the invoked operation — success,
returned failure, or raised exception — the stored record ends with
finished_at set, its completion event fired, and a terminal status, while
its status was non-terminal before; the event transitions false → true
exactly in this step. -/
theorem worker_always_fires_completion (st : ManagerState) (jid : String)
    (outcome : Except String GenerateResult) (tStart tFinish : Int) (record : JobRecord)
    (hfind : findJob st.jobs jid = some record)
    (hq : record.status = GenerateJobStatus.queued)
    (hev : record.done_event = false) :
    record.status.isTerminal = false ∧
    ∃ record3,
      findJob (workerProcessJob st jid outcome tStart tFinish).jobs jid = some record3 ∧
      record3.finished_at = some tFinish ∧
      record3.done_event = true ∧
      record3.status.isTerminal = true := by
  have hnc : ¬ record.status = GenerateJobStatus.cancelled := by
    rw [hq]
    exact fun hcon => nomatch hcon
  refine ⟨by rw [hq]; rfl, ?_⟩
  simp only [workerProcessJob, hfind, hnc, if_false]
  refine ⟨_, findJob_updateJob st.jobs jid record _ hfind ?_, rfl, rfl, ?_⟩
  · rw [workerApplyOutcome_id]
    exact findJob_id st.jobs jid record hfind
  · exact workerApplyOutcome_terminal _ outcome

/-- Fixed request used by concrete witnesses. -/
def req0 : GenerateRequest := { prompt := some "a ring" }

/-- A queued record with id j1 used by concrete witnesses. -/
def rec1 : JobRecord := newJobRecord ("j1") req0 0

/-- A one-job manager state used by concrete witnesses. -/
def stOne : ManagerState := { jobs := [rec1], queue := ["j1"], maxQueueSize := 8 }

theorem worker_always_fires_completion_witness :
    rec1.status.isTerminal = false ∧
    ∃ record3,
      findJob (workerProcessJob stOne ("j1") (Except.error ("boom")) 1 2).jobs ("j1")
        = some record3 ∧
      record3.finished_at = some 2 ∧
      record3.done_event = true ∧
      record3.status.isTerminal = true :=
  worker_always_fires_completion stOne ("j1") (Except.error ("boom")) 1 2 rec1
    (by decide) rfl rfl

/-- C4: submit fails with QueueFull when the admission queue is at
capacity and with DuplicateJobId when the resolved id is registered,
leaving the state untouched in both cases; on success it returns a Queued
record with created_at = now, appends it to the registry, enqueues its
id, and the record is immediately visible to get. -/
theorem submit_spec (st : ManagerState) (request : GenerateRequest)
    (job_id : Option String) (freshId : String) (now : Int) :
    (queueFull st = true →
      submit st request job_id freshId now = (st, Except.error JobManagerError.queueFull)) ∧
    (queueFull st = false →
      ∀ r, findJob st.jobs (resolveJobId job_id request freshId) = some r →
      submit st request job_id freshId now
        = (st, Except.error
            (JobManagerError.duplicateJobId (resolveJobId job_id request freshId)))) ∧
    (queueFull st = false →
      findJob st.jobs (resolveJobId job_id request freshId) = none →
      submit st request job_id freshId now =
        ({ st with
            jobs := st.jobs
              ++ [newJobRecord (resolveJobId job_id request freshId) request now]
            queue := st.queue ++ [resolveJobId job_id request freshId] },
         Except.ok (newJobRecord (resolveJobId job_id request freshId) request now)) ∧
      (newJobRecord (resolveJobId job_id request freshId) request now).status
        = GenerateJobStatus.queued ∧
      (newJobRecord (resolveJobId job_id request freshId) request now).created_at = now ∧
      getJob (submit st request job_id freshId now).1 (resolveJobId job_id request freshId)
        = Except.ok (newJobRecord (resolveJobId job_id request freshId) request now)) := by
  refine ⟨?_, ?_, ?_⟩
  · intro h
    simp [submit, h]
  · intro h r hr
    simp [submit, h, hr]
  · intro h hn
    have heq : submit st request job_id freshId now =
        ({ st with
            jobs := st.jobs
              ++ [newJobRecord (resolveJobId job_id request freshId) request now]
            queue := st.queue ++ [resolveJobId job_id request freshId] },
         Except.ok (newJobRecord (resolveJobId job_id request freshId) request now)) := by
      simp [submit, h, hn]
    refine ⟨heq, rfl, rfl, ?_⟩
    rw [heq]
    have hvis :
        findJob (st.jobs ++ [newJobRecord (resolveJobId job_id request freshId) request now])
            (resolveJobId job_id request freshId)
          = some (newJobRecord (resolveJobId job_id request freshId) request now) :=
      findJob_append_fresh st.jobs
        (newJobRecord (resolveJobId job_id request freshId) request now) hn
    simp only [getJob, hvis]

/-- A manager state whose admission queue is at capacity. -/
def stFull : ManagerState := { jobs := [], queue := ["q1"], maxQueueSize := 1 }

theorem submit_spec_witness :
    (queueFull stFull = true ∧
      submit stFull req0 none ("f1") 0 = (stFull, Except.error JobManagerError.queueFull)) ∧
    (queueFull stOne = false ∧
      findJob stOne.jobs (resolveJobId (some ("j1")) req0 ("f1")) = some rec1 ∧
      submit stOne req0 (some ("j1")) ("f1") 0
        = (stOne, Except.error
            (JobManagerError.duplicateJobId (resolveJobId (some ("j1")) req0 ("f1"))))) :=
  ⟨⟨rfl, (submit_spec stFull req0 none ("f1") 0).1 rfl⟩,
   ⟨rfl, by decide, (submit_spec stOne req0 (some ("j1")) ("f1") 0).2.1 rfl rec1 (by decide)⟩⟩

/-- C5: cancel on a Queued record transitions it to Cancelled with
finished_at = now and the completion event fired, storing and returning
that record; on a terminal record it returns the record with state and
record untouched; on a Running record it fails with CannotCancelRunning
and the state is untouched. -/
theorem cancel_spec (st : ManagerState) (jid : String) (now : Int) (record : JobRecord)
    (hfind : findJob st.jobs jid = some record) :
    (record.status = GenerateJobStatus.queued →
      cancel st jid now =
        ({ st with
            jobs := updateJob st.jobs jid
              { record with
                status := GenerateJobStatus.cancelled
                finished_at := some now
                done_event := true } },
         Except.ok
           { record with
             status := GenerateJobStatus.cancelled
             finished_at := some now
             done_event := true })) ∧
    (record.status.isTerminal = true →
      cancel st jid now = (st, Except.ok record)) ∧
    (record.status = GenerateJobStatus.running →
      cancel st jid now = (st, Except.error JobManagerError.cannotCancelRunning)) := by
  refine ⟨?_, ?_, ?_⟩
  · intro h
    simp [cancel, hfind, h]
  · intro h
    have hnq : ¬ record.status = GenerateJobStatus.queued := by
      intro hcon
      rw [hcon] at h
      exact nomatch h
    simp [cancel, hfind, hnq, h]
  · intro h
    have hnq : ¬ record.status = GenerateJobStatus.queued := by
      rw [h]
      exact fun hcon => nomatch hcon
    have hnt : ¬ record.status.isTerminal = true := by
      rw [h]
      exact fun hcon => nomatch hcon
    simp [cancel, hfind, hnq, hnt]

/-- A running record with id j2 used by concrete witnesses. -/
def rec2 : JobRecord :=
  { rec1 with id := "j2", status := GenerateJobStatus.running, started_at := some 1 }

/-- A two-job manager state used by concrete witnesses. -/
def stTwo : ManagerState := { jobs := [rec1, rec2], queue := ["j1"], maxQueueSize := 8 }

theorem cancel_spec_witness :
    (cancel stTwo ("j1") 5 =
      ({ stTwo with
          jobs := updateJob stTwo.jobs ("j1")
            { rec1 with
              status := GenerateJobStatus.cancelled
              finished_at := some 5
              done_event := true } },
       Except.ok
         { rec1 with
           status := GenerateJobStatus.cancelled
           finished_at := some 5
           done_event := true })) ∧
    (cancel stTwo ("j2") 5 = (stTwo, Except.error JobManagerError.cannotCancelRunning)) :=
  ⟨(cancel_spec stTwo ("j1") 5 rec1 (by decide)).1 rfl,
   (cancel_spec stTwo ("j2") 5 rec2 (by decide)).2.2 rfl⟩

/-- C9: wait_for_completion never changes the manager state on any path
(waiting is purely observational); when the record exists and its
completion event neither is set nor fires within the timeout it fails
with WaitTimeout, and when the event is set or fires in time it returns
the record unchanged. -/
theorem wait_for_completion_spec (st : ManagerState) (jid : String)
    (externalFire : Bool) :
    (wait_for_completion st jid externalFire).1 = st ∧
    (∀ record, findJob st.jobs jid = some record →
      record.done_event = false → externalFire = false →
      wait_for_completion st jid externalFire
        = (st, Except.error (JobManagerError.waitTimeout jid))) ∧
    (∀ record, findJob st.jobs jid = some record →
      (record.done_event || externalFire) = true →
      wait_for_completion st jid externalFire = (st, Except.ok record)) := by
  refine ⟨?_, ?_, ?_⟩
  · cases hf : findJob st.jobs jid with
    | none => simp [wait_for_completion, hf]
    | some record =>
        by_cases hw : (record.done_event || externalFire) = true
        · simp [wait_for_completion, hf, hw]
        · simp [wait_for_completion, hf, hw]
  · intro record hf he hx
    simp [wait_for_completion, hf, he, hx]
  · intro record hf hw
    simp [wait_for_completion, hf, hw, getJob]

theorem wait_for_completion_spec_witness :
    (wait_for_completion stOne ("j1") false).1 = stOne ∧
    wait_for_completion stOne ("j1") false
      = (stOne, Except.error (JobManagerError.waitTimeout ("j1"))) :=
  ⟨(wait_for_completion_spec stOne ("j1") false).1,
   (wait_for_completion_spec stOne ("j1") false).2.1 rec1 (by decide) rfl rfl⟩

/-- C8 counterexample: with 64 reported CPUs the default worker count is
4, not 32 — the default never scales across the upper part of the [1,32]
range. -/
theorem default_concurrency_capped_at_four :
    _default_concurrency (some 64) = 4 ∧ _default_concurrency (some 64) < 32 := by
  decide

/-- C8 (amended): for every possible reported CPU count (including none),
the default worker-pool size lies within the validated [1,32] bounds of
max_concurrent_jobs, but it is additionally capped at 4: it is
max(1, min(4, cpu // 2 if cpu > 2 else 1)) and never exceeds 4 no matter
how much hardware parallelism is reported. -/
theorem default_concurrency_bounds (cpu_count : Option Nat) :
    maxConcurrentJobsValid (_default_concurrency cpu_count) ∧
    _default_concurrency cpu_count ≤ 4 := by
  cases cpu_count with
  | none => exact ⟨⟨by decide, by decide⟩, by decide⟩
  | some n =>
      refine ⟨⟨?_, ?_⟩, ?_⟩ <;>
        · simp only [_default_concurrency, pyCpuOr2]
          split <;> split <;> omega

/-! ### Sweeper lemmas -/

lemma id_inj (jobs : List JobRecord) (hnd : (jobs.map (fun j => j.id)).Nodup)
    {x y : JobRecord} (hx : x ∈ jobs) (hy : y ∈ jobs) (h : x.id = y.id) : x = y :=
  List.inj_on_of_nodup_map hnd hx hy h

lemma findJob_eq_of_mem (j : JobRecord) :
    ∀ jobs : List JobRecord, (jobs.map (fun x => x.id)).Nodup → j ∈ jobs →
    findJob jobs j.id = some j := by
  intro jobs
  induction jobs with
  | nil =>
      intro _ hj
      exact absurd hj (List.not_mem_nil j)
  | cons k ks ih =>
      intro hnd hj
      have hcons : (∀ x ∈ ks, ¬ x.id = k.id) ∧ (ks.map (fun x => x.id)).Nodup := by
        simpa using hnd
      rcases List.mem_cons.mp hj with rfl | hmem
      · simp [findJob, List.find?_cons]
      · have hne : ¬ (k.id = j.id) := fun he => hcons.1 j hmem he.symm
        have hd : decide (k.id = j.id) = false := by simp [hne]
        simp only [findJob, List.find?_cons, hd]
        exact ih hcons.2 hmem

lemma findJob_eq_none_of (jobs : List JobRecord) (jid : String)
    (h : ∀ x ∈ jobs, ¬ x.id = jid) : findJob jobs jid = none := by
  rw [findJob, List.find?_eq_none]
  intro x hx
  simp [h x hx]

lemma capEvict_sublist (jobs : List JobRecord) (maxR : Nat) :
    List.Sublist (capEvict jobs maxR) jobs := by
  simp only [capEvict]
  split
  · exact List.filter_sublist jobs
  · exact List.Sublist.refl jobs

lemma capEvict_count (jobs : List JobRecord) (maxR : Nat)
    (hnd : (jobs.map (fun j => j.id)).Nodup) :
    countTerminal (capEvict jobs maxR) = min (countTerminal jobs) maxR := by
  simp only [capEvict]
  split
  case isFalse hneg =>
    simp only [countTerminal] at hneg ⊢
    omega
  case isTrue hpos =>
    set completed := jobs.filter (fun j => j.status.isTerminal) with hcompleted
    set overflow := completed.length - maxR with hoverflow
    set sorted := completed.mergeSort (fun a b => decide (sweepKey a ≤ sweepKey b))
      with hsorted
    set evict := sorted.take overflow with hevict
    set keep : JobRecord → Bool :=
      fun j => !(evict.any (fun e => e.id == j.id)) with hkeep
    have hperm : List.Perm sorted completed := completed.mergeSort_perm _
    have hnic : (completed.map (fun j => j.id)).Nodup :=
      List.Nodup.sublist (List.Sublist.map (fun j => j.id) (List.filter_sublist jobs)) hnd
    have hnis : (sorted.map (fun j => j.id)).Nodup :=
      ((hperm.map (fun j => j.id)).nodup_iff).mpr hnic
    have hns : sorted.Nodup := List.Nodup.of_map _ hnis
    have hx : (jobs.filter keep).filter (fun j => j.status.isTerminal)
        = completed.filter keep := by
      rw [List.filter_filter, hcompleted, List.filter_filter]
      exact List.filter_congr (fun a _ => Bool.and_comm _ _)
    have hev_nil : evict.filter keep = [] := by
      rw [List.filter_eq_nil_iff]
      intro x hx1 hkx
      have hany : evict.any (fun e => e.id == x.id) = true :=
        List.any_eq_true.mpr ⟨x, hx1, by simp⟩
      rw [hkeep] at hkx
      simp only [hany] at hkx
      exact nomatch hkx
    have hrest_self : (sorted.drop overflow).filter keep = sorted.drop overflow := by
      rw [List.filter_eq_self]
      intro y hy
      by_contra hk
      have hk2 : evict.any (fun e => e.id == y.id) = true := by
        rw [hkeep] at hk
        simpa using hk
      obtain ⟨e, he, heq⟩ := List.any_eq_true.mp hk2
      have heq1 : e.id = y.id := by simpa using heq
      have hey : e = y := id_inj sorted hnis
        ((List.take_sublist _ _).subset he) ((List.drop_sublist _ _).subset hy) heq1
      have hsplit : evict ++ sorted.drop overflow = sorted := by
        rw [hevict]
        exact List.take_append_drop overflow sorted
      have hnd2 : (evict ++ sorted.drop overflow).Nodup := by
        rw [hsplit]
        exact hns
      exact (List.nodup_append.mp hnd2).2.2 (hey ▸ he) hy
    have hfinal : countTerminal (jobs.filter keep) = maxR := by
      have hc1 : countTerminal (jobs.filter keep) = (completed.filter keep).length := by
        rw [countTerminal, hx]
      have hc2 : (completed.filter keep).length = (sorted.filter keep).length :=
        ((hperm.filter keep).length_eq).symm
      have hsplit : sorted = evict ++ sorted.drop overflow := by
        rw [hevict]
        exact (List.take_append_drop overflow sorted).symm
      have hc3 : (sorted.filter keep).length = (sorted.drop overflow).length := by
        conv_lhs => rw [hsplit]
        rw [List.filter_append, hev_nil, hrest_self]
        simp
      have hc4 : (sorted.drop overflow).length = completed.length - overflow := by
        rw [List.length_drop, hperm.length_eq]
      rw [hc1, hc2, hc3, hc4]
      omega
    have hcj : countTerminal jobs = completed.length := by
      rw [countTerminal, hcompleted]
    rw [hfinal]
    omega

lemma sweepKey_trans (a b c : JobRecord)
    (hab : decide (sweepKey a ≤ sweepKey b) = true)
    (hbc : decide (sweepKey b ≤ sweepKey c) = true) :
    decide (sweepKey a ≤ sweepKey c) = true := by
  simp only [decide_eq_true_eq] at hab hbc ⊢
  exact le_trans hab hbc

lemma sweepKey_total (a b : JobRecord) :
    (decide (sweepKey a ≤ sweepKey b) || decide (sweepKey b ≤ sweepKey a)) = true := by
  simpa using le_total (sweepKey a) (sweepKey b)

lemma capEvict_keeps_nonterminal (jobs : List JobRecord) (maxR : Nat)
    (hnd : (jobs.map (fun j => j.id)).Nodup) :
    ∀ j ∈ jobs, j.status.isTerminal = false → j ∈ capEvict jobs maxR := by
  intro j hj hterm
  simp only [capEvict]
  split
  case isFalse => exact hj
  case isTrue hpos =>
    refine List.mem_filter.mpr ⟨hj, ?_⟩
    have hany : (List.any
        (List.take ((jobs.filter (fun j => j.status.isTerminal)).length - maxR)
          ((jobs.filter (fun j => j.status.isTerminal)).mergeSort
            (fun a b => decide (sweepKey a ≤ sweepKey b))))
        (fun e => e.id == j.id)) = false := by
      by_contra hk
      have hk2 := List.any_eq_true.mp (Bool.of_not_eq_false hk)
      obtain ⟨e, he, heq⟩ := hk2
      have heq1 : e.id = j.id := by simpa using heq
      have hes := (List.take_sublist _ _).subset he
      have hec := (List.mem_mergeSort).mp hes
      have hej := (List.filter_sublist jobs).subset hec
      have hterm2 := (List.mem_filter.mp hec).2
      have hej2 : e = j := id_inj jobs hnd hej hj heq1
      rw [hej2, hterm] at hterm2
      exact nomatch hterm2
    simp [hany]

lemma capEvict_oldest (jobs : List JobRecord) (maxR : Nat)
    (hnd : (jobs.map (fun j => j.id)).Nodup) :
    ∀ x ∈ jobs, x ∉ capEvict jobs maxR →
    ∀ y ∈ capEvict jobs maxR, y.status.isTerminal = true →
    sweepKey x ≤ sweepKey y := by
  simp only [capEvict]
  split
  case isFalse =>
    intro x hx hxn
    exact absurd hx hxn
  case isTrue hpos =>
    set completed := jobs.filter (fun j => j.status.isTerminal) with hcompleted
    set overflow := completed.length - maxR with hoverflow
    set sorted := completed.mergeSort (fun a b => decide (sweepKey a ≤ sweepKey b))
      with hsorted
    set evict := sorted.take overflow with hevict
    set keep : JobRecord → Bool :=
      fun j => !(evict.any (fun e => e.id == j.id)) with hkeep
    intro x hx hxn y hy hyt
    have hperm : List.Perm sorted completed := completed.mergeSort_perm _
    have hsplit : evict ++ sorted.drop overflow = sorted := by
      rw [hevict]
      exact List.take_append_drop overflow sorted
    have hkx : keep x = false := by
      rcases Bool.eq_false_or_eq_true (keep x) with h | h
      · exact absurd (List.mem_filter.mpr ⟨hx, h⟩) hxn
      · exact h
    have hax : evict.any (fun e => e.id == x.id) = true := by
      rw [hkeep] at hkx
      simpa using hkx
    obtain ⟨e, he, heq⟩ := List.any_eq_true.mp hax
    have heq1 : e.id = x.id := by simpa using heq
    have hes : e ∈ sorted := (List.take_sublist _ _).subset he
    have hec : e ∈ completed := hperm.subset hes
    have hej : e ∈ jobs := (List.filter_sublist jobs).subset hec
    have hex : e = x := id_inj jobs hnd hej hx heq1
    have hyj := List.mem_filter.mp hy
    have hyc : y ∈ completed := List.mem_filter.mpr ⟨hyj.1, hyt⟩
    have hys : y ∈ sorted := hperm.mem_iff.mpr hyc
    have hyn : y ∉ evict := by
      intro hmem
      have hay : evict.any (fun e2 => e2.id == y.id) = true :=
        List.any_eq_true.mpr ⟨y, hmem, by simp⟩
      have hky := hyj.2
      rw [hkeep] at hky
      simp only [hay] at hky
      exact nomatch hky
    have hyd : y ∈ sorted.drop overflow := by
      have hmem2 : y ∈ evict ++ sorted.drop overflow := by
        rw [hsplit]
        exact hys
      rcases List.mem_append.mp hmem2 with h | h
      · exact absurd h hyn
      · exact h
    have hpw : sorted.Pairwise (fun a b => decide (sweepKey a ≤ sweepKey b) = true) := by
      rw [hsorted]
      exact List.sorted_mergeSort sweepKey_trans sweepKey_total completed
    have hpw2 : (evict ++ sorted.drop overflow).Pairwise
        (fun a b => decide (sweepKey a ≤ sweepKey b) = true) := by
      rw [hsplit]
      exact hpw
    have hcross := (List.pairwise_append.mp hpw2).2.2
    have hxy := hcross x (hex ▸ he) y hyd
    exact of_decide_eq_true hxy

/-- C6: on a sweep tick over a registry with distinct ids, (1) every
terminal record whose finished_at is older than the TTL is gone
afterwards, (2) the number of terminal records remaining is the minimum
of the post-TTL terminal count and max_job_records — i.e. exactly the
excess beyond the cap is evicted, (3) every record evicted by the
capacity phase has a sort key (finished_at, falling back to created_at)
at most that of every terminal record kept — the oldest are evicted
first, and (4) Queued/Running records are never removed and remain
findable unchanged. -/
theorem sweep_tick_spec (jobs : List JobRecord) (now ttl : Int) (max_job_records : Nat)
    (hnd : (jobs.map (fun j => j.id)).Nodup) :
    (∀ j ∈ jobs, ttlExpired now ttl j = true →
       findJob (sweepTick jobs now ttl max_job_records) j.id = none) ∧
    countTerminal (sweepTick jobs now ttl max_job_records)
      = min (countTerminal (ttlEvict jobs now ttl)) max_job_records ∧
    (∀ x ∈ ttlEvict jobs now ttl, x ∉ sweepTick jobs now ttl max_job_records →
       ∀ y ∈ sweepTick jobs now ttl max_job_records, y.status.isTerminal = true →
       sweepKey x ≤ sweepKey y) ∧
    (∀ j ∈ jobs, j.status.isTerminal = false →
       findJob (sweepTick jobs now ttl max_job_records) j.id = some j) := by
  have hnd1 : ((ttlEvict jobs now ttl).map (fun j => j.id)).Nodup :=
    List.Nodup.sublist (List.Sublist.map _ (List.filter_sublist jobs)) hnd
  refine ⟨?_, ?_, ?_, ?_⟩
  · intro j hj hexp
    apply findJob_eq_none_of
    intro x hx hxid
    have hx1 : x ∈ ttlEvict jobs now ttl := (capEvict_sublist _ _).subset hx
    have hx2 : x ∈ jobs := (List.filter_sublist jobs).subset hx1
    have hxj : x = j := id_inj jobs hnd hx2 hj hxid
    rw [hxj] at hx1
    have hkept := (List.mem_filter.mp hx1).2
    rw [hexp] at hkept
    exact nomatch hkept
  · exact capEvict_count _ _ hnd1
  · exact capEvict_oldest _ _ hnd1
  · intro j hj hterm
    have hj1 : j ∈ ttlEvict jobs now ttl := by
      refine List.mem_filter.mpr ⟨hj, ?_⟩
      simp [ttlExpired, hterm]
    have hj2 := capEvict_keeps_nonterminal _ max_job_records hnd1 j hj1 hterm
    have hnd2 : ((sweepTick jobs now ttl max_job_records).map (fun j => j.id)).Nodup :=
      List.Nodup.sublist (List.Sublist.map _ (capEvict_sublist _ _)) hnd1
    exact findJob_eq_of_mem j _ hnd2 hj2

/-- Terminal record, finished at time 10, used by the sweep witness. -/
def recA : JobRecord :=
  { id := "a", request := req0, status := GenerateJobStatus.succeeded, created_at := 0,
    finished_at := some 10 }

/-- Terminal record, finished at time 20, used by the sweep witness. -/
def recB : JobRecord :=
  { id := "b", request := req0, status := GenerateJobStatus.failed, created_at := 0,
    finished_at := some 20 }

/-- Terminal record, finished at time 30, used by the sweep witness. -/
def recC : JobRecord :=
  { id := "c", request := req0, status := GenerateJobStatus.succeeded, created_at := 0,
    finished_at := some 30 }

/-- Running record used by the sweep witness. -/
def recR : JobRecord :=
  { id := "r", request := req0, status := GenerateJobStatus.running, created_at := 0 }

/-- Registry snapshot used by the sweep witness. -/
def jobsC : List JobRecord := [recA, recB, recC, recR]

theorem sweep_tick_spec_witness :
    countTerminal (sweepTick jobsC 100 85 1)
      = min (countTerminal (ttlEvict jobsC 100 85)) 1 ∧
    findJob (sweepTick jobsC 100 85 1) ("r") = some recR :=
  ⟨(sweep_tick_spec jobsC 100 85 1 (by decide)).2.1,
   (sweep_tick_spec jobsC 100 85 1 (by decide)).2.2.2 recR (by decide) rfl⟩
